import Mathlib

/-!
Verification of the conversation/prompt-assembly backend: prompt assembler,
FAQ augmentation, conversation store and generation client.

Python strings are modelled as `List Char` (a Python `str` is a sequence of
code points); Python dicts as insertion-ordered association lists, matching
dict semantics (assignment keeps the original position of an existing key and
appends a new key at the end; `setdefault` inserts a default for a missing
key).  External effects (the wall clock, uuid generation, the FAQ database
and the generation backend) are explicit parameters or oracles.
-/

namespace ChatBackend

/-- Model of a Python `str`: a sequence of characters. -/
abbrev PyStr := List Char

/-- Whitespace characters removed by Python `str.strip()` (ASCII subset). -/
def pyIsSpace (c : Char) : Bool :=
  c = ' ' || c = '\t' || c = '\n' || c = '\r' || c = '\x0b' || c = '\x0c'

/-- Model of Python `str.strip()`: remove whitespace from both ends. -/
def pyStrip (s : PyStr) : PyStr :=
  ((s.dropWhile pyIsSpace).reverse.dropWhile pyIsSpace).reverse

/-- Boolean test that `p` is a prefix of `s`. -/
def isPrefixList : List Char → List Char → Bool
  | [], _ => true
  | _ :: _, [] => false
  | a :: as, b :: bs => a = b && isPrefixList as bs

/-- Index of the first occurrence of `sep` as a contiguous substring of `s`. -/
def findSub (sep : List Char) : List Char → Option Nat
  | [] => if isPrefixList sep [] then some 0 else none
  | c :: t => if isPrefixList sep (c :: t) then some 0 else (findSub sep t).map (· + 1)

/-- Model of Python `sep in s` (substring containment). -/
def pyIn (sep s : PyStr) : Bool := (findSub sep s).isSome

/-- Model of Python `s.split(sep, 1)[1]`: everything after the first
occurrence of `sep`; `s` itself when `sep` does not occur. -/
def dropAfterFirst (sep s : PyStr) : PyStr :=
  match findSub sep s with
  | some i => s.drop (i + sep.length)
  | none => s

-- from src/backend/main.py, `_derive_title`

/-- The default conversation title. -/
def NEW_CONVERSATION_T : PyStr := "New Conversation".toList

/-- Model of `_derive_title` (src/backend/main.py): strip the text; empty gives the
default title, otherwise the first 60 characters plus an ellipsis when the
stripped text is longer than 60. -/
def derive_title (text : PyStr) : PyStr :=
  let cleaned := pyStrip text
  if cleaned = [] then NEW_CONVERSATION_T
  else cleaned.take 60 ++ (if cleaned.length > 60 then "...".toList else [])

-- from src/backend/database.py

/-- One row of the `faqs` table (src/backend/database.py). -/
structure Faq where
  id : Nat
  category : PyStr
  question : PyStr
  answer : PyStr
deriving DecidableEq

/-- Model of `get_relevant_faqs` (src/backend/database.py): the SQL query itself is
external I/O, so its outcome is the input here; the function's own logic is
the `try`/`except` that turns any database error into the empty list. -/
def get_relevant_faqs : Except PyStr (List Faq) → List Faq
  | Except.ok faqs => faqs
  | Except.error _ => []

/-- Header line of the FAQ context block. -/
def RELEVANT_HEADER : PyStr := "Relevant information from the Opportunity Center:\n".toList

/-- Model of `augment_prompt_with_context` (src/backend/database.py), parametrised by
the already-retrieved FAQ list: with no FAQs the history is returned as is;
otherwise a header plus one "- question: answer" line per FAQ is accumulated
and placed ahead of the history, separated by a newline. -/
def augment_prompt_with_context (faqs : List Faq) (conversation_history : PyStr) : PyStr :=
  if faqs = [] then conversation_history
  else
    let context := faqs.foldl
      (fun acc faq => acc ++ "- ".toList ++ faq.question ++ ": ".toList ++ faq.answer ++ "\n".toList)
      RELEVANT_HEADER
    context ++ "\n".toList ++ conversation_history

-- from src/backend/main.py, the prompt assembler

/-- A message role. -/
inductive Role where
  | user
  | assistant
deriving DecidableEq

/-- Model of `ChatMessage` (src/backend/main.py): timestamps are modelled as naturals
(order-isomorphic to the rendered ISO-8601 strings). -/
structure ChatMessage where
  id : PyStr
  content : PyStr
  role : Role
  timestamp : Nat
  conversationId : PyStr
deriving DecidableEq

/-- Model of `history[-10:]` in `_build_prompt`: the last ten messages. -/
def recent_history (history : List ChatMessage) : List ChatMessage :=
  history.drop (history.length - 10)

/-- One line of the history block in `_build_prompt`. -/
def renderMessageLine (msg : ChatMessage) : PyStr :=
  (if msg.role = Role.user then "User".toList else "Assistant".toList) ++ ": ".toList ++ msg.content

/-- The history block of `_build_prompt`: the rendered recent messages joined
by newlines. -/
def history_block (history : List ChatMessage) : PyStr :=
  List.intercalate "\n".toList ((recent_history history).map renderMessageLine)

/-- The latest question of `_build_prompt`: content of the most recent user
message in the window, or empty when there is none. -/
def latest_question (history : List ChatMessage) : PyStr :=
  match (recent_history history).reverse.find? (fun msg => decide (msg.role = Role.user)) with
  | some msg => msg.content
  | none => []

/-- The fixed system instruction of `_build_prompt`. -/
def SYSTEM_INSTRUCTION : PyStr :=
  ("You are a helpful assistant for the Opportunity Center. " ++
   "Provide a single concise answer to the most recent user question. " ++
   "Do not invent or ask questions. Reply with only the answer text, no prefixes or labels. " ++
   "Keep replies under 80 words.").toList

/-- The conversation context string of `_build_prompt`. -/
def conversation_context (history : List ChatMessage) : PyStr :=
  "Recent conversation:\n".toList ++ history_block history ++ "\n\n".toList ++
  "Answer the latest user question once. Do not add new questions.\n".toList ++
  "Latest question: ".toList ++ latest_question history ++ "\n".toList ++
  "Answer:".toList

/-- The pure part of `_build_prompt` (src/backend/main.py): assemble the full
prompt from the conversation history and the FAQ retrieval outcome.  The
retrieval query (`latest_content`) only influences the external database
search, which is part of the retrieval outcome here. -/
def build_prompt_string (history : List ChatMessage) (retrieval : Except PyStr (List Faq)) : PyStr :=
  SYSTEM_INSTRUCTION ++ "\n\n".toList ++
    augment_prompt_with_context (get_relevant_faqs retrieval) (conversation_context history)

/-- The last ten elements of a list, in original order, stated the way the
spec words it (take ten from the reversed list, then restore the order). -/
def lastTenMessages (history : List ChatMessage) : List ChatMessage :=
  (history.reverse.take 10).reverse

/-- The rendered line of one FAQ record inside the context block. -/
def faqLine (faq : Faq) : PyStr :=
  "- ".toList ++ faq.question ++ ": ".toList ++ faq.answer ++ "\n".toList

-- from src/backend/llm_model.py, the generation client

/-- Outcome of the HTTP call to the generation backend: a successful response
body (the `response` field of the JSON reply) or a transport/status error
(`requests` exception or non-2xx status). -/
inductive BackendResult where
  | ok (response : PyStr)
  | err (detail : PyStr)
deriving DecidableEq

/-- Errors raised by `generate_text`: `ValueError` for invalid input and the
generic wrapper around backend failures. -/
inductive GenError where
  | invalidInput (detail : PyStr)
  | apiError (detail : PyStr)
deriving DecidableEq

/-- Detail string of the empty-prompt `ValueError`. -/
def EMPTY_PROMPT_DETAIL : PyStr := "Prompt must not be empty.".toList

/-- Detail wrapper of the backend-failure exception. -/
def OLLAMA_ERROR : PyStr := "Ollama API error: ".toList

/-- The scaffold marker used by the chat pipeline and the wrap fallback. -/
def ANSWER_MARK : PyStr := "Answer:".toList

/-- The generic system instruction used when `wrap_prompt` is enabled. -/
def WRAP_INSTRUCTION : PyStr :=
  ("You are a helpful, knowledgeable AI assistant for the Opportunity Center. " ++
   "Answer the following question clearly and concisely.").toList

/-- Python truthiness of the `strip_after` argument (`None` and the empty
string are falsy). -/
def stripAfterTruthy : Option PyStr → Bool
  | none => false
  | some m => decide (m ≠ [])

/-- The `full_prompt` sent to the backend by `generate_text`. -/
def full_prompt_of (prompt : PyStr) (wrap_prompt : Bool) : PyStr :=
  if wrap_prompt then
    WRAP_INSTRUCTION ++ "\n\nQuestion:\n".toList ++ pyStrip prompt ++ "\n\nAnswer:".toList
  else pyStrip prompt

/-- Model of `generate_text` (src/backend/llm_model.py).  The HTTP request is external
I/O, modelled by the `backend` oracle (sampling parameters are merely passed
through and are folded into the oracle).  The empty-prompt check, the prompt
wrapping, the error wrapping and the marker stripping are the function's own
logic and are modelled exactly. -/
def generate_text (prompt : PyStr) (wrap_prompt : Bool) (strip_after : Option PyStr)
    (backend : PyStr → BackendResult) : Except GenError PyStr :=
  if prompt = [] then Except.error (GenError.invalidInput EMPTY_PROMPT_DETAIL)
  else
    match backend (full_prompt_of prompt wrap_prompt) with
    | BackendResult.err e => Except.error (GenError.apiError (OLLAMA_ERROR ++ e))
    | BackendResult.ok response =>
      let reply := pyStrip response
      if stripAfterTruthy strip_after && pyIn (strip_after.getD []) reply then
        Except.ok (pyStrip (dropAfterFirst (strip_after.getD []) reply))
      else if wrap_prompt && pyIn ANSWER_MARK reply then
        Except.ok (pyStrip (dropAfterFirst ANSWER_MARK reply))
      else
        Except.ok reply

-- the conversation store (src/backend/main.py)

/-- Insertion-ordered association list with string keys, modelling a Python
dict: lookup finds the first (unique) matching key, assignment keeps the
position of an existing key and appends a new key at the end, `pop` removes
the entry, `setdefault` inserts a default for a missing key and returns the
value. -/
abbrev AListS (α : Type) := List (PyStr × α)

/-- Dict lookup. -/
def alGet {α : Type} : AListS α → PyStr → Option α
  | [], _ => none
  | (k₀, v₀) :: rest, k => if k₀ = k then some v₀ else alGet rest k

/-- Dict assignment `m[k] = v`. -/
def alSet {α : Type} : AListS α → PyStr → α → AListS α
  | [], k, v => [(k, v)]
  | (k₀, v₀) :: rest, k, v => if k₀ = k then (k, v) :: rest else (k₀, v₀) :: alSet rest k v

/-- Dict `m.pop(k, None)`. -/
def alPop {α : Type} : AListS α → PyStr → AListS α
  | [], _ => []
  | (k₀, v₀) :: rest, k => if k₀ = k then rest else (k₀, v₀) :: alPop rest k

/-- Dict `m.setdefault(k, d)`: the returned value and the updated dict. -/
def alSetdefault {α : Type} (m : AListS α) (k : PyStr) (d : α) : α × AListS α :=
  match alGet m k with
  | some v => (v, m)
  | none => (d, m ++ [(k, d)])

/-- The keys of a dict, in insertion order. -/
def alKeys {α : Type} (m : AListS α) : List PyStr := m.map (fun e => e.1)

/-- Dict membership `k in m`. -/
def alContains {α : Type} (m : AListS α) (k : PyStr) : Bool := (alGet m k).isSome

/-- Conversation metadata (the dict stored in `conversation_metadata`). -/
structure ConvMeta where
  title : PyStr
  created_at : Nat
  updated_at : Nat
deriving DecidableEq

/-- The two process-wide maps of src/backend/main.py:
`conversation_messages` and `conversation_metadata`. -/
structure Store where
  conversation_messages : AListS (AListS (List ChatMessage))
  conversation_metadata : AListS (AListS ConvMeta)
deriving DecidableEq

/-- The initial (empty) store. -/
def Store.empty : Store := ⟨[], []⟩

/-- Replace the `conversation_messages` map. -/
def Store.withMessages (st : Store) (m : AListS (AListS (List ChatMessage))) : Store :=
  { st with conversation_messages := m }

/-- Replace the `conversation_metadata` map. -/
def Store.withMetadata (st : Store) (m : AListS (AListS ConvMeta)) : Store :=
  { st with conversation_metadata := m }

/-- Model of `_get_user_message_store`: `conversation_messages.setdefault(user_id, {})`. -/
def getUserMessageStore (uid : PyStr) (st : Store) : AListS (List ChatMessage) × Store :=
  let r := alSetdefault st.conversation_messages uid []
  (r.1, { st with conversation_messages := r.2 })

/-- Model of `_get_user_metadata_store`: `conversation_metadata.setdefault(user_id, {})`. -/
def getUserMetadataStore (uid : PyStr) (st : Store) : AListS ConvMeta × Store :=
  let r := alSetdefault st.conversation_metadata uid []
  (r.1, { st with conversation_metadata := r.2 })

/-- Model of `_create_conversation` (src/backend/main.py): the generated uuid and the
clock reading are inputs.  Sets the metadata entry (title derived from the
first message, `created_at = updated_at = now`) and an empty message list. -/
def create_conversation (uid fm : PyStr) (now : Nat) (conv_id : PyStr) (st : Store) :
    PyStr × Store :=
  let m := getUserMetadataStore uid st
  let mm := getUserMessageStore uid m.2
  let st₁ := mm.2
  let meta : ConvMeta := ⟨derive_title fm, now, now⟩
  (conv_id,
   { conversation_metadata := alSet st₁.conversation_metadata uid (alSet m.1 conv_id meta),
     conversation_messages := alSet st₁.conversation_messages uid (alSet mm.1 conv_id []) })

/-- Model of `_ensure_conversation` (src/backend/main.py): a supplied, truthy id that
exists for the user is returned unchanged; otherwise a conversation is
created. -/
def ensure_conversation (uid : PyStr) (conversation_id : Option PyStr) (user_message : PyStr)
    (now : Nat) (new_conv_id : PyStr) (st : Store) : PyStr × Store :=
  let m := getUserMetadataStore uid st
  match conversation_id with
  | some cid =>
    if cid ≠ [] ∧ alContains m.1 cid then (cid, m.2)
    else create_conversation uid user_message now new_conv_id m.2
  | none => create_conversation uid user_message now new_conv_id m.2

/-- Errors of the store operations: the explicit 404 `HTTPException` and the
`KeyError` a missing metadata entry would raise on dict indexing. -/
inductive StoreErr where
  | notFound
  | keyError
deriving DecidableEq

/-- Detail string of the 404 error. -/
def NOT_FOUND_DETAIL : PyStr := "Conversation not found.".toList

/-- Model of `_store_message` (src/backend/main.py).  The uuid and the clock readings
are inputs (the two `utcnow()` calls of the source are modelled as one
sample `now`).  Appends the message, bumps `updated_at`, and sets the title
from a user message when the current title is empty or the placeholder. -/
def store_message (uid conv_id : PyStr) (role : Role) (content : PyStr) (now : Nat)
    (msg_id : PyStr) (st : Store) : Except StoreErr ChatMessage × Store :=
  let mm := getUserMessageStore uid st
  let m := getUserMetadataStore uid mm.2
  let st₁ := m.2
  if alContains mm.1 conv_id = false then (Except.error StoreErr.notFound, st₁)
  else
    let message : ChatMessage := ⟨msg_id, content, role, now, conv_id⟩
    let st₂ := st₁.withMessages
      (alSet st₁.conversation_messages uid
        (alSet mm.1 conv_id ((alGet mm.1 conv_id).getD [] ++ [message])))
    match alGet m.1 conv_id with
    | none => (Except.error StoreErr.keyError, st₂)
    | some meta₀ =>
      let meta₁ : ConvMeta := { meta₀ with updated_at := now }
      let meta₂ :=
        if role = Role.user ∧ (meta₁.title = [] ∨ meta₁.title = NEW_CONVERSATION_T) then
          { meta₁ with title := derive_title content }
        else meta₁
      (Except.ok message,
       st₂.withMetadata (alSet st₂.conversation_metadata uid (alSet m.1 conv_id meta₂)))

/-- Model of the `get_conversation` endpoint (src/backend/main.py), after the user id has
been read from the header. -/
def get_conversation (conversation_id uid : PyStr) (st : Store) :
    Except StoreErr (List ChatMessage) × Store :=
  let mm := getUserMessageStore uid st
  if alContains mm.1 conversation_id = false then (Except.error StoreErr.notFound, mm.2)
  else (Except.ok ((alGet mm.1 conversation_id).getD []), mm.2)

/-- Model of `ConversationSummary` (src/backend/main.py); timestamps as naturals,
order-isomorphic to their rendered ISO-8601 strings. -/
structure ConversationSummary where
  id : PyStr
  title : PyStr
  createdAt : Nat
  updatedAt : Nat
  messageCount : Nat
deriving DecidableEq

/-- The fallback title of `_conversation_summary`. -/
def CONVERSATION_T : PyStr := "Conversation".toList

/-- Model of `_conversation_summary` (src/backend/main.py): falls back to the first
user message for a default/empty title, then to "Conversation". -/
def conversation_summary (uid conversation_id : PyStr) (st : Store) :
    Except StoreErr ConversationSummary × Store :=
  let m := getUserMetadataStore uid st
  let mm := getUserMessageStore uid m.2
  let st₁ := mm.2
  match alGet m.1 conversation_id with
  | none => (Except.error StoreErr.notFound, st₁)
  | some meta =>
    let messages := (alGet mm.1 conversation_id).getD []
    let title₀ := meta.title
    let title₁ :=
      if (title₀ = [] ∨ title₀ = NEW_CONVERSATION_T) ∧ messages ≠ [] then
        match messages.find? (fun msg => decide (msg.role = Role.user)) with
        | some msg => derive_title msg.content
        | none => title₀
      else title₀
    (Except.ok ⟨conversation_id, if title₁ = [] then CONVERSATION_T else title₁,
        meta.created_at, meta.updated_at, messages.length⟩, st₁)

/-- Stable insertion step for the descending sort by `updatedAt`. -/
def insertByUpdatedDesc (s : ConversationSummary) :
    List ConversationSummary → List ConversationSummary
  | [] => [s]
  | t :: ts => if s.updatedAt < t.updatedAt then t :: insertByUpdatedDesc s ts else s :: t :: ts

/-- Model of `summaries.sort(key=lambda s: s.updatedAt, reverse=True)`:
a stable sort, descending by `updatedAt`. -/
def sortByUpdatedDesc : List ConversationSummary → List ConversationSummary
  | [] => []
  | s :: rest => insertByUpdatedDesc s (sortByUpdatedDesc rest)

/-- The summary comprehension of `list_conversations`: one summary per key of
the user's metadata dict, threading the store (each call may run the
setdefaults); an error would propagate, aborting the remainder. -/
def summariesGo (uid : PyStr) :
    List PyStr → Store → Except StoreErr (List ConversationSummary) × Store
  | [], st => (Except.ok [], st)
  | cid :: rest, st =>
    match conversation_summary uid cid st with
    | (Except.error e, st₁) => (Except.error e, st₁)
    | (Except.ok s, st₁) =>
      match summariesGo uid rest st₁ with
      | (Except.error e, st₂) => (Except.error e, st₂)
      | (Except.ok ss, st₂) => (Except.ok (s :: ss), st₂)

/-- Model of the `list_conversations` endpoint (src/backend/main.py). -/
def list_conversations (uid : PyStr) (st : Store) :
    Except StoreErr (List ConversationSummary) × Store :=
  let m := getUserMetadataStore uid st
  match summariesGo uid (alKeys m.1) m.2 with
  | (Except.error e, st₁) => (Except.error e, st₁)
  | (Except.ok ss, st₁) => (Except.ok (sortByUpdatedDesc ss), st₁)

/-- Model of the `delete_conversation` endpoint (src/backend/main.py). -/
def delete_conversation (conversation_id uid : PyStr) (st : Store) :
    Except StoreErr Unit × Store :=
  let m := getUserMetadataStore uid st
  if alContains m.1 conversation_id = false then (Except.error StoreErr.notFound, m.2)
  else
    let mm := getUserMessageStore uid m.2
    let st₁ := mm.2.withMessages
      (alSet mm.2.conversation_messages uid (alPop mm.1 conversation_id))
    (Except.ok (),
     st₁.withMetadata (alSet st₁.conversation_metadata uid (alPop m.1 conversation_id)))

/-- Model of the `clear_conversation_messages` endpoint (src/backend/main.py): empties the
message list (dict assignment, which would also insert a missing key) and
refreshes `updated_at`. -/
def clear_conversation_messages (conversation_id uid : PyStr) (now : Nat) (st : Store) :
    Except StoreErr Unit × Store :=
  let m := getUserMetadataStore uid st
  let mm := getUserMessageStore uid m.2
  if alContains m.1 conversation_id = false then (Except.error StoreErr.notFound, mm.2)
  else
    let st₁ := mm.2.withMessages
      (alSet mm.2.conversation_messages uid (alSet mm.1 conversation_id []))
    match alGet m.1 conversation_id with
    | none => (Except.error StoreErr.keyError, st₁)
    | some meta =>
      (Except.ok (),
       st₁.withMetadata
         (alSet st₁.conversation_metadata uid
           (alSet m.1 conversation_id { meta with updated_at := now })))

/-- The stateful part of `_build_prompt` (src/backend/main.py): reads the
conversation history (running the setdefault) and assembles the prompt. -/
def build_prompt (uid conversation_id : PyStr) (retrieval : Except PyStr (List Faq))
    (st : Store) : PyStr × Store :=
  let mm := getUserMessageStore uid st
  (build_prompt_string ((alGet mm.1 conversation_id).getD []) retrieval, mm.2)

/-- Model of `SendMessageResponse` (src/backend/main.py). -/
structure SendMessageResponse where
  message : ChatMessage
  conversationId : PyStr
deriving DecidableEq

/-- An HTTP error response (status code and detail). -/
inductive HttpError where
  | http (status : Nat) (detail : PyStr)
deriving DecidableEq

/-- How a store error surfaces over HTTP: the `HTTPException` carries 404;
an uncaught `KeyError` becomes a 500 at the framework boundary. -/
def StoreErr.toHttp : StoreErr → HttpError
  | StoreErr.notFound => HttpError.http 404 NOT_FOUND_DETAIL
  | StoreErr.keyError => HttpError.http 500 "KeyError".toList

/-- Detail string of the blank-message 400 error. -/
def EMPTY_MESSAGE_DETAIL : PyStr := "Message must not be empty.".toList

/-- Prefix of the 500 detail when generation fails. -/
def LLM_FAILED : PyStr := "LLM generation failed: ".toList

/-- Model of the `chat_with_llm` endpoint (src/backend/main.py): strip and validate the
message, ensure the conversation, persist the user message, build the
prompt, call the generation client (`wrap_prompt=False`,
`strip_after="Answer:"`), and on success persist the assistant reply.
`ValueError` maps to 400, any other generation failure to 500. -/
def chat_with_llm (uid reqMessage : PyStr) (reqConversationId : Option PyStr)
    (retrieval : Except PyStr (List Faq)) (backend : PyStr → BackendResult)
    (now : Nat) (new_conv_id msg_id₁ msg_id₂ : PyStr) (st : Store) :
    Except HttpError SendMessageResponse × Store :=
  let message_text := pyStrip reqMessage
  if message_text = [] then (Except.error (HttpError.http 400 EMPTY_MESSAGE_DETAIL), st)
  else
    let ec := ensure_conversation uid reqConversationId message_text now new_conv_id st
    match store_message uid ec.1 Role.user message_text now msg_id₁ ec.2 with
    | (Except.error e, st₁) => (Except.error e.toHttp, st₁)
    | (Except.ok _, st₁) =>
      let bp := build_prompt uid ec.1 retrieval st₁
      match generate_text bp.1 false (some ANSWER_MARK) backend with
      | Except.error (GenError.invalidInput d) => (Except.error (HttpError.http 400 d), bp.2)
      | Except.error (GenError.apiError d) =>
        (Except.error (HttpError.http 500 (LLM_FAILED ++ d)), bp.2)
      | Except.ok reply =>
        match store_message uid ec.1 Role.assistant reply now msg_id₂ bp.2 with
        | (Except.error e, st₂) => (Except.error e.toHttp, st₂)
        | (Except.ok am, st₂) => (Except.ok ⟨am, ec.1⟩, st₂)

-- derived views and invariants

/-- The metadata dict of one user (empty when the user is unknown). -/
def metaView (st : Store) (uid : PyStr) : AListS ConvMeta :=
  (alGet st.conversation_metadata uid).getD []

/-- The message dict of one user (empty when the user is unknown). -/
def msgsView (st : Store) (uid : PyStr) : AListS (List ChatMessage) :=
  (alGet st.conversation_messages uid).getD []

/-- The metadata of one conversation. -/
def metaLookup (st : Store) (uid cid : PyStr) : Option ConvMeta :=
  alGet (metaView st uid) cid

/-- The message list of one conversation. -/
def messagesOf (st : Store) (uid cid : PyStr) : List ChatMessage :=
  (alGet (msgsView st uid) cid).getD []

/-- Remove the first occurrence of a key from a key list. -/
def eraseKey (k : PyStr) : List PyStr → List PyStr
  | [] => []
  | a :: as => if a = k then as else a :: eraseKey k as

/-- The store after `conversation_metadata.setdefault(uid, {})`. -/
def sdMeta (uid : PyStr) (st : Store) : Store :=
  st.withMetadata (alSetdefault st.conversation_metadata uid []).2

/-- The store after `conversation_messages.setdefault(uid, {})`. -/
def sdMsgs (uid : PyStr) (st : Store) : Store :=
  st.withMessages (alSetdefault st.conversation_messages uid []).2

/-- The store after both per-user setdefaults. -/
def sdBoth (uid : PyStr) (st : Store) : Store :=
  ⟨(alSetdefault st.conversation_messages uid []).2,
   (alSetdefault st.conversation_metadata uid []).2⟩

/-- The summary `_conversation_summary` computes, as a pure function of the
user's two dicts. -/
def pureSummary (ume : AListS ConvMeta) (um : AListS (List ChatMessage)) (cid : PyStr) :
    Except StoreErr ConversationSummary :=
  match alGet ume cid with
  | none => Except.error StoreErr.notFound
  | some meta =>
    let messages := (alGet um cid).getD []
    let title₀ := meta.title
    let title₁ :=
      if (title₀ = [] ∨ title₀ = NEW_CONVERSATION_T) ∧ messages ≠ [] then
        match messages.find? (fun msg => decide (msg.role = Role.user)) with
        | some msg => derive_title msg.content
        | none => title₀
      else title₀
    Except.ok ⟨cid, if title₁ = [] then CONVERSATION_T else title₁,
      meta.created_at, meta.updated_at, messages.length⟩

/-- The summary list of `list_conversations`, as a pure function of the
user's two dicts. -/
def goPure (ume : AListS ConvMeta) (um : AListS (List ChatMessage)) :
    List PyStr → Except StoreErr (List ConversationSummary)
  | [] => Except.ok []
  | cid :: rest =>
    match pureSummary ume um cid with
    | Except.error e => Except.error e
    | Except.ok s =>
      match goPure ume um rest with
      | Except.error e => Except.error e
      | Except.ok ss => Except.ok (s :: ss)

/-- The metadata record `_store_message` writes back. -/
def storeNewMeta (role : Role) (content : PyStr) (meta₀ : ConvMeta) (now : Nat) : ConvMeta :=
  let meta₁ : ConvMeta := { meta₀ with updated_at := now }
  if role = Role.user ∧ (meta₁.title = [] ∨ meta₁.title = NEW_CONVERSATION_T) then
    { meta₁ with title := derive_title content }
  else meta₁

/-- The store `_create_conversation` leaves behind. -/
def createPost (uid fm : PyStr) (now : Nat) (cid : PyStr) (st : Store) : Store :=
  ⟨alSet (sdBoth uid st).conversation_messages uid (alSet (msgsView st uid) cid []),
   alSet (sdBoth uid st).conversation_metadata uid
     (alSet (metaView st uid) cid ⟨derive_title fm, now, now⟩)⟩

/-- The store after `_store_message` has appended the message (shared by the
success and the KeyError path). -/
def storeMsgOnlyPost (uid cid : PyStr) (role : Role) (content : PyStr) (now : Nat)
    (mid : PyStr) (st : Store) : Store :=
  (sdBoth uid st).withMessages
    (alSet (sdBoth uid st).conversation_messages uid
      (alSet (msgsView st uid) cid
        (messagesOf st uid cid ++ [⟨mid, content, role, now, cid⟩])))

/-- The store a successful `_store_message` leaves behind. -/
def storeOkPost (uid cid : PyStr) (role : Role) (content : PyStr) (now : Nat)
    (mid : PyStr) (st : Store) (meta₀ : ConvMeta) : Store :=
  (storeMsgOnlyPost uid cid role content now mid st).withMetadata
    (alSet (storeMsgOnlyPost uid cid role content now mid st).conversation_metadata uid
      (alSet (metaView st uid) cid (storeNewMeta role content meta₀ now)))

/-- The store a successful `delete_conversation` leaves behind. -/
def deletePost (cid uid : PyStr) (st : Store) : Store :=
  ⟨alSet (sdBoth uid st).conversation_messages uid (alPop (msgsView st uid) cid),
   alSet (sdBoth uid st).conversation_metadata uid (alPop (metaView st uid) cid)⟩

/-- The store after `clear_conversation_messages` has emptied the message
list. -/
def clearMsgPost (cid uid : PyStr) (st : Store) : Store :=
  (sdBoth uid st).withMessages
    (alSet (sdBoth uid st).conversation_messages uid (alSet (msgsView st uid) cid []))

/-- The store a successful `clear_conversation_messages` leaves behind. -/
def clearPost (cid uid : PyStr) (now : Nat) (st : Store) (meta : ConvMeta) : Store :=
  (clearMsgPost cid uid st).withMetadata
    (alSet (clearMsgPost cid uid st).conversation_metadata uid
      (alSet (metaView st uid) cid { meta with updated_at := now }))

/-- C10's invariant: per user, the metadata dict and the message dict hold
exactly the same conversation ids (even in the same order). -/
def StoreInv (st : Store) : Prop :=
  ∀ uid : PyStr, alKeys (metaView st uid) = alKeys (msgsView st uid)

/-- Concrete run used to witness the failed-generation claim: the ensured
conversation of a first message "Hi" from user "u". -/
def wChatEnsure : PyStr × Store :=
  ensure_conversation "u".toList none (pyStrip "Hi".toList) 0 "c".toList Store.empty

/-- Concrete run used to witness the failed-generation claim: the stored user
message. -/
def wChatStore : Except StoreErr ChatMessage × Store :=
  store_message "u".toList "c".toList Role.user (pyStrip "Hi".toList) 0 "m1".toList
    wChatEnsure.2

/-- Concrete run used to witness the failed-generation claim: the assembled
prompt. -/
def wChatBP : PyStr × Store :=
  build_prompt "u".toList "c".toList (Except.ok []) wChatStore.2

/-- A generation backend that always fails. -/
def wBackendDown : PyStr → BackendResult := fun _ => BackendResult.err "down".toList

/-- States reachable from the empty store by the four store operations:
conversation creation, message storage, conversation deletion and message
clearing (with arbitrary arguments, successful or not). -/
inductive Reachable : Store → Prop where
  | empty : Reachable Store.empty
  | create (uid fm : PyStr) (now : Nat) (cid : PyStr) {st : Store} :
      Reachable st → Reachable (create_conversation uid fm now cid st).2
  | store (uid cid : PyStr) (role : Role) (content : PyStr) (now : Nat) (mid : PyStr)
      {st : Store} :
      Reachable st → Reachable (store_message uid cid role content now mid st).2
  | delete (cid uid : PyStr) {st : Store} :
      Reachable st → Reachable (delete_conversation cid uid st).2
  | clear (cid uid : PyStr) (now : Nat) {st : Store} :
      Reachable st → Reachable (clear_conversation_messages cid uid now st).2

end ChatBackend

namespace ChatBackend

theorem augment_foldl_eq (faqs : List Faq) (acc : PyStr) :
    faqs.foldl
      (fun acc faq => acc ++ "- ".toList ++ faq.question ++ ": ".toList ++ faq.answer ++ "\n".toList)
      acc = acc ++ (faqs.map faqLine).flatten := by
  induction faqs generalizing acc with
  | nil => simp
  | cons f rest ih =>
    simp only [List.foldl_cons]
    rw [ih]
    simp [faqLine]

/-- C1: For every conversation, the history block is built from exactly the
last 10 messages in their original chronological order (all messages when
fewer than 10 exist), each rendered according to its role and joined by
newlines; the earlier messages are exactly the part of the conversation in
front of that window, so no earlier message contributes a line. -/
theorem history_block_last_ten (msgs : List ChatMessage) :
    history_block msgs
        = List.intercalate "\n".toList ((lastTenMessages msgs).map renderMessageLine)
      ∧ msgs.take (msgs.length - 10) ++ lastTenMessages msgs = msgs
      ∧ (lastTenMessages msgs).length = min 10 msgs.length
      ∧ (msgs.length ≤ 10 → lastTenMessages msgs = msgs) := by
  have hlast : lastTenMessages msgs = recent_history msgs := by
    rw [lastTenMessages, recent_history, ← List.rtake_eq_reverse_take_reverse, List.rtake]
  refine ⟨by rw [hlast, history_block], ?_, ?_, ?_⟩
  · rw [hlast, recent_history, List.take_append_drop]
  · rw [lastTenMessages]
    simp
  · intro hle
    rw [hlast, recent_history, Nat.sub_eq_zero_of_le hle, List.drop_zero]

/-- C1 witness: on a two-message conversation the window is the whole
conversation. -/
theorem history_block_last_ten_witness :
    (([⟨"a".toList, "hi".toList, Role.user, 0, "c".toList⟩,
       ⟨"b".toList, "yo".toList, Role.assistant, 1, "c".toList⟩] : List ChatMessage).length ≤ 10)
    ∧ lastTenMessages
        [⟨"a".toList, "hi".toList, Role.user, 0, "c".toList⟩,
         ⟨"b".toList, "yo".toList, Role.assistant, 1, "c".toList⟩]
      = [⟨"a".toList, "hi".toList, Role.user, 0, "c".toList⟩,
         ⟨"b".toList, "yo".toList, Role.assistant, 1, "c".toList⟩] :=
  ⟨by decide,
   (history_block_last_ten
     [⟨"a".toList, "hi".toList, Role.user, 0, "c".toList⟩,
      ⟨"b".toList, "yo".toList, Role.assistant, 1, "c".toList⟩]).2.2.2 (by decide)⟩

/-- C2: With zero retrieved records the augmented prompt is byte-identical to
the unaugmented conversation context; with one or more records, the prompt is
exactly a header followed by one "- question: answer" line per record, in
retrieval order, placed ahead of the conversation context. -/
theorem augment_prompt_characterization :
    (∀ ctx : PyStr, augment_prompt_with_context [] ctx = ctx)
    ∧ ∀ (faqs : List Faq) (ctx : PyStr), faqs ≠ [] →
        augment_prompt_with_context faqs ctx
          = RELEVANT_HEADER ++ (faqs.map faqLine).flatten ++ "\n".toList ++ ctx := by
  constructor
  · intro ctx
    simp [augment_prompt_with_context]
  · intro faqs ctx hne
    rw [augment_prompt_with_context, if_neg hne, augment_foldl_eq]

/-- C2 witness: one concrete FAQ record produces the header, its line and the
context, in that order. -/
theorem augment_prompt_characterization_witness :
    (([⟨1, "general".toList, "q1".toList, "a1".toList⟩] : List Faq) ≠ [])
    ∧ augment_prompt_with_context [⟨1, "general".toList, "q1".toList, "a1".toList⟩] "CTX".toList
      = RELEVANT_HEADER
          ++ (([⟨1, "general".toList, "q1".toList, "a1".toList⟩] : List Faq).map faqLine).flatten
          ++ "\n".toList ++ "CTX".toList :=
  ⟨by decide,
   augment_prompt_characterization.2 [⟨1, "general".toList, "q1".toList, "a1".toList⟩]
     "CTX".toList (by decide)⟩

/-- C3: When FAQ retrieval fails internally, the error is swallowed (the
retriever returns the empty list) and prompt assembly completes with the
unaugmented conversation context. -/
theorem retrieval_failure_unaugmented :
    (∀ e ctx : PyStr,
       augment_prompt_with_context (get_relevant_faqs (Except.error e)) ctx = ctx)
    ∧ ∀ (e : PyStr) (history : List ChatMessage),
        build_prompt_string history (Except.error e)
          = SYSTEM_INSTRUCTION ++ "\n\n".toList ++ conversation_context history := by
  constructor
  · intro e ctx
    simp [get_relevant_faqs, augment_prompt_with_context]
  · intro e history
    simp [build_prompt_string, get_relevant_faqs, augment_prompt_with_context]

/-- C4: For every input string, the derived conversation title equals: the
string trimmed of surrounding whitespace when the trimmed result is non-empty
and at most 60 characters; the first 60 characters of the trimmed string
followed by "..." when the trimmed string exceeds 60 characters; and
"New Conversation" when the trimmed string is empty. -/
theorem derive_title_spec (text : PyStr) :
    derive_title text =
      if pyStrip text = [] then NEW_CONVERSATION_T
      else if (pyStrip text).length ≤ 60 then pyStrip text
      else (pyStrip text).take 60 ++ "...".toList := by
  unfold derive_title
  by_cases h : pyStrip text = []
  · simp [h]
  · by_cases h60 : (pyStrip text).length ≤ 60
    · simp [h, h60, Nat.not_lt.mpr h60, List.take_of_length_le h60]
    · simp [h, h60, Nat.lt_of_not_le h60]

theorem isPrefixList_iff (p s : List Char) : isPrefixList p s = true ↔ ∃ t, p ++ t = s := by
  induction p generalizing s with
  | nil => simp [isPrefixList]
  | cons a as ih =>
    cases s with
    | nil =>
      simp [isPrefixList]
    | cons b bs =>
      simp only [isPrefixList, Bool.and_eq_true, decide_eq_true_eq, ih, List.cons_append,
        List.cons.injEq]
      constructor
      · rintro ⟨hab, t, ht⟩
        exact ⟨t, hab, ht⟩
      · rintro ⟨t, hab, ht⟩
        exact ⟨hab, t, ht⟩

theorem findSub_spec (sep : List Char) :
    ∀ (s : List Char) (i : Nat), findSub sep s = some i →
      isPrefixList sep (s.drop i) = true ∧ i ≤ s.length
        ∧ ∀ j, j < i → isPrefixList sep (s.drop j) = false := by
  intro s
  induction s with
  | nil =>
    intro i h
    rw [findSub] at h
    split at h
    · obtain rfl : (0 : Nat) = i := Option.some.inj h
      refine ⟨by assumption, Nat.le_refl _, ?_⟩
      intro j hj
      exact absurd hj (Nat.not_lt_zero _)
    · exact absurd h (by simp)
  | cons c t ih =>
    intro i h
    rw [findSub] at h
    split at h
    · obtain rfl : (0 : Nat) = i := Option.some.inj h
      refine ⟨by assumption, Nat.zero_le _, ?_⟩
      intro j hj
      exact absurd hj (Nat.not_lt_zero _)
    · rename_i hp
      obtain ⟨i₀, hi₀, rfl⟩ := Option.map_eq_some'.mp h
      obtain ⟨h₁, h₂, h₃⟩ := ih i₀ hi₀
      refine ⟨h₁, by simpa using Nat.succ_le_succ h₂, ?_⟩
      intro j hj
      cases j with
      | zero =>
        simpa using Bool.not_eq_true _ ▸ (eq_false_of_ne_true hp)
      | succ j₀ =>
        exact h₃ j₀ (Nat.lt_of_succ_lt_succ hj)

theorem findSub_decomp (sep s : List Char) (i : Nat) (h : findSub sep s = some i) :
    s = s.take i ++ sep ++ s.drop (i + sep.length) ∧ (s.take i).length = i := by
  obtain ⟨hpre, hle, -⟩ := findSub_spec sep s i h
  obtain ⟨t, ht⟩ := (isPrefixList_iff _ _).mp hpre
  have hdrop : s.drop (i + sep.length) = t := by
    have h2 : s.drop (i + sep.length) = (s.drop i).drop sep.length := by
      rw [List.drop_drop]
    rw [h2, ← ht, List.drop_left]
  refine ⟨?_, by simp [Nat.min_eq_left hle]⟩
  rw [hdrop, List.append_assoc, ht, List.take_append_drop]

/-- C7 counterexample: a whitespace-only (blank but non-empty) prompt is not
rejected; the backend is consulted and its reply is returned, so the claim
that every blank prompt fails with InvalidInput before any network call is
false. -/
theorem blank_prompt_not_rejected_cex :
    generate_text " ".toList false none (fun _ => BackendResult.ok "A".toList)
        = Except.ok "A".toList
    ∧ generate_text " ".toList false none (fun _ => BackendResult.ok "B".toList)
        = Except.ok "B".toList := by
  constructor <;> rfl

/-- C7 (amended): for every empty prompt the client fails with the
InvalidInput error whatever the backend does (so before any network call);
a whitespace-only non-empty prompt is not rejected — it is stripped to the
empty string and sent, the result being whatever the backend answers. -/
theorem empty_prompt_rejected :
    (∀ (wrap : Bool) (sa : Option PyStr) (backend : PyStr → BackendResult),
       generate_text [] wrap sa backend
         = Except.error (GenError.invalidInput EMPTY_PROMPT_DETAIL))
    ∧ ∀ backend : PyStr → BackendResult,
        generate_text " ".toList false none backend
          = match backend [] with
            | BackendResult.err e => Except.error (GenError.apiError (OLLAMA_ERROR ++ e))
            | BackendResult.ok r => Except.ok (pyStrip r) := by
  constructor
  · intro wrap sa backend
    rfl
  · intro backend
    have hfp : full_prompt_of " ".toList false = [] := rfl
    rw [generate_text, if_neg (by decide), hfp]
    cases hb : backend [] with
    | err e => rfl
    | ok r => rfl

/-- C8 counterexample: with wrapping enabled, a configured marker that is
absent from the reply does not leave the reply unmodified — the fallback
strips after the first "Answer:" instead. -/
theorem strip_marker_wrap_fallback_cex :
    generate_text "q".toList true (some "XYZ".toList)
        (fun _ => BackendResult.ok " junk Answer: hi ".toList)
      = Except.ok "hi".toList
    ∧ pyIn "XYZ".toList (pyStrip " junk Answer: hi ".toList) = false
    ∧ "hi".toList ≠ pyStrip " junk Answer: hi ".toList := by
  refine ⟨rfl, rfl, by decide⟩

/-- C8 (amended): on success with a configured (non-empty) marker, if the
marker occurs in the extracted reply the returned reply is the substring
after the first occurrence of the marker, trimmed; if the marker is absent
and prompt wrapping is disabled, the reply is returned trimmed but otherwise
unmodified (with wrapping enabled an absent marker falls back to stripping
after "Answer:" when that is present). -/
theorem strip_marker_spec (prompt m response : PyStr) (wrap : Bool)
    (backend : PyStr → BackendResult)
    (hp : prompt ≠ []) (hm : m ≠ [])
    (hb : backend (full_prompt_of prompt wrap) = BackendResult.ok response) :
    (pyIn m (pyStrip response) = true →
       ∃ before after, pyStrip response = before ++ m ++ after
         ∧ generate_text prompt wrap (some m) backend = Except.ok (pyStrip after)
         ∧ ∀ b a, pyStrip response = b ++ m ++ a → before.length ≤ b.length)
    ∧ (pyIn m (pyStrip response) = false → wrap = false →
       generate_text prompt wrap (some m) backend = Except.ok (pyStrip response)) := by
  have hgen : generate_text prompt wrap (some m) backend
      = (if stripAfterTruthy (some m) && pyIn m (pyStrip response) then
           Except.ok (pyStrip (dropAfterFirst m (pyStrip response)))
         else if wrap && pyIn ANSWER_MARK (pyStrip response) then
           Except.ok (pyStrip (dropAfterFirst ANSWER_MARK (pyStrip response)))
         else Except.ok (pyStrip response)) := by
    rw [generate_text, if_neg hp, hb]
    rfl
  constructor
  · intro hin
    obtain ⟨i, hfind⟩ := Option.isSome_iff_exists.mp hin
    obtain ⟨hdec, hlen⟩ := findSub_decomp m (pyStrip response) i hfind
    refine ⟨(pyStrip response).take i, (pyStrip response).drop (i + m.length), hdec, ?_, ?_⟩
    · rw [hgen, if_pos (by simp [stripAfterTruthy, hm, hin]), dropAfterFirst, hfind]
    · intro b a hba
      obtain ⟨hpre₀, -, hmin⟩ := findSub_spec m (pyStrip response) i hfind
      have hpre : isPrefixList m ((pyStrip response).drop b.length) = true := by
        rw [hba, List.append_assoc, List.drop_left]
        exact (isPrefixList_iff _ _).mpr ⟨a, rfl⟩
      have : ¬ b.length < i := fun hlt => by rw [hmin b.length hlt] at hpre; exact absurd hpre (by simp)
      omega
  · intro hnot hw
    rw [hgen, hw]
    simp [hnot]

theorem alKeys_nil {α : Type} : alKeys ([] : AListS α) = [] := rfl

theorem alKeys_cons {α : Type} (e : PyStr × α) (l : AListS α) :
    alKeys (e :: l) = e.1 :: alKeys l := rfl

theorem alGet_alSet {α : Type} (m : AListS α) (k : PyStr) (v : α) (u : PyStr) :
    alGet (alSet m k v) u = if u = k then some v else alGet m u := by
  induction m with
  | nil =>
    simp only [alSet, alGet]
    by_cases hu : u = k
    · rw [if_pos hu.symm, if_pos hu]
    · rw [if_neg (fun h => hu h.symm), if_neg hu]
  | cons e rest ih =>
    obtain ⟨k₀, v₀⟩ := e
    by_cases h : k₀ = k
    · subst h
      simp only [alSet, if_pos rfl]
      by_cases hu : u = k₀
      · simp only [alGet, if_pos hu.symm, if_pos hu]
      · simp only [alGet, if_neg (fun hh : k₀ = u => hu hh.symm), if_neg hu]
    · simp only [alSet, if_neg h]
      by_cases hu : k₀ = u
      · have huk : ¬ u = k := fun hh => h (hu.trans hh)
        simp only [alGet, if_pos hu, if_neg huk]
      · simp only [alGet, if_neg hu, ih]

theorem alKeys_alSet {α : Type} (m : AListS α) (k : PyStr) (v : α) :
    alKeys (alSet m k v)
      = if (alGet m k).isSome then alKeys m else alKeys m ++ [k] := by
  induction m with
  | nil => simp [alSet, alGet, alKeys]
  | cons e rest ih =>
    obtain ⟨k₀, v₀⟩ := e
    by_cases h : k₀ = k
    · subst h
      simp [alSet, alGet, alKeys_cons]
    · simp only [alSet, if_neg h, alKeys_cons, alGet, ih]
      by_cases hs : (alGet rest k).isSome
      · rw [if_pos hs, if_pos hs]
      · rw [if_neg hs, if_neg hs, List.cons_append]

theorem alKeys_alPop {α : Type} (m : AListS α) (k : PyStr) :
    alKeys (alPop m k) = eraseKey k (alKeys m) := by
  induction m with
  | nil => rfl
  | cons e rest ih =>
    obtain ⟨k₀, v₀⟩ := e
    by_cases h : k₀ = k
    · simp only [alPop, if_pos h, alKeys_cons, eraseKey, if_pos h]
      rfl
    · simp only [alPop, if_neg h, alKeys_cons, eraseKey, if_neg h, ih]
      rfl

theorem alGet_isSome_iff {α : Type} (m : AListS α) (k : PyStr) :
    (alGet m k).isSome = true ↔ k ∈ alKeys m := by
  induction m with
  | nil => simp [alGet, alKeys]
  | cons e rest ih =>
    obtain ⟨k₀, v₀⟩ := e
    rw [alKeys_cons, List.mem_cons]
    by_cases h : k₀ = k
    · simp [alGet, h]
    · have hk : ¬ k = k₀ := fun hh => h hh.symm
      simp [alGet, h, hk, ih]

theorem alGet_append_missing {α : Type} (m : AListS α) (k u : PyStr) (d : α)
    (h : alGet m u = none) :
    alGet (m ++ [(k, d)]) u = if k = u then some d else none := by
  induction m with
  | nil => simp [alGet]
  | cons e rest ih =>
    obtain ⟨k₀, v₀⟩ := e
    by_cases h₀ : k₀ = u
    · rw [alGet, if_pos h₀] at h
      exact absurd h (by simp)
    · rw [alGet, if_neg h₀] at h
      rw [List.cons_append, alGet, if_neg h₀, ih h]

theorem alGet_append_found {α : Type} (m : AListS α) (k u : PyStr) (d v : α)
    (h : alGet m u = some v) :
    alGet (m ++ [(k, d)]) u = some v := by
  induction m with
  | nil => exact absurd h (by simp [alGet])
  | cons e rest ih =>
    obtain ⟨k₀, v₀⟩ := e
    by_cases h₀ : k₀ = u
    · rw [alGet, if_pos h₀] at h
      rw [List.cons_append, alGet, if_pos h₀, h]
    · rw [alGet, if_neg h₀] at h
      rw [List.cons_append, alGet, if_neg h₀, ih h]

theorem alSetdefault_fst {α : Type} (m : AListS α) (k : PyStr) (d : α) :
    (alSetdefault m k d).1 = (alGet m k).getD d := by
  rw [alSetdefault]
  cases h : alGet m k <;> simp

theorem alGet_alSetdefault {α : Type} (m : AListS α) (k : PyStr) (d : α) (u : PyStr) :
    alGet (alSetdefault m k d).2 u
      = if u = k then some ((alGet m k).getD d) else alGet m u := by
  cases h : alGet m k with
  | some v =>
    have hpair : alSetdefault m k d = (v, m) := by rw [alSetdefault, h]
    rw [hpair]
    by_cases hu : u = k <;> simp [hu, h]
  | none =>
    have hpair : (alSetdefault m k d).2 = m ++ [(k, d)] := by rw [alSetdefault, h]
    rw [hpair]
    by_cases hu : u = k
    · simp only [if_pos hu, hu, h]
      rw [alGet_append_missing m k k d h, if_pos rfl]
      rfl
    · rw [if_neg hu]
      cases hv : alGet m u with
      | some v => rw [alGet_append_found m k u d v hv]
      | none =>
        rw [alGet_append_missing m k u d hv, if_neg (fun hh : k = u => hu hh.symm)]

theorem alSetdefault_snd {α : Type} (m : AListS α) (k : PyStr) (d : α) :
    (alSetdefault m k d).2
      = if alContains m k = true then m else m ++ [(k, d)] := by
  cases h : alGet m k with
  | some v => simp [alSetdefault, alContains, h]
  | none => simp [alSetdefault, alContains, h]

theorem alSetdefault_idem {α : Type} (m : AListS α) (k : PyStr) (d : α) :
    (alSetdefault (alSetdefault m k d).2 k d).2 = (alSetdefault m k d).2 := by
  have h : alGet (alSetdefault m k d).2 k = some ((alGet m k).getD d) := by
    rw [alGet_alSetdefault, if_pos rfl]
  rw [alSetdefault, h]

theorem view_setdefault {β : Type} (m : AListS (List β)) (k u : PyStr) :
    (alGet (alSetdefault m k []).2 u).getD [] = (alGet m u).getD [] := by
  rw [alGet_alSetdefault]
  by_cases hu : u = k
  · subst hu
    cases h : alGet m u <;> simp
  · simp [hu]

theorem getUserMessageStore_eq (uid : PyStr) (st : Store) :
    getUserMessageStore uid st = (msgsView st uid, sdMsgs uid st) := by
  simp [getUserMessageStore, msgsView, sdMsgs, Store.withMessages, alSetdefault_fst]

theorem getUserMetadataStore_eq (uid : PyStr) (st : Store) :
    getUserMetadataStore uid st = (metaView st uid, sdMeta uid st) := by
  simp [getUserMetadataStore, metaView, sdMeta, Store.withMetadata, alSetdefault_fst]

theorem metaView_sdMsgs (uid : PyStr) (st : Store) (u : PyStr) :
    metaView (sdMsgs uid st) u = metaView st u := rfl

theorem msgsView_sdMeta (uid : PyStr) (st : Store) (u : PyStr) :
    msgsView (sdMeta uid st) u = msgsView st u := rfl

theorem msgsView_sdMsgs (uid : PyStr) (st : Store) (u : PyStr) :
    msgsView (sdMsgs uid st) u = msgsView st u := by
  simp [msgsView, sdMsgs, Store.withMessages, view_setdefault]

theorem metaView_sdMeta (uid : PyStr) (st : Store) (u : PyStr) :
    metaView (sdMeta uid st) u = metaView st u := by
  simp [metaView, sdMeta, Store.withMetadata, view_setdefault]

theorem sdMeta_sdMsgs (uid : PyStr) (st : Store) :
    sdMeta uid (sdMsgs uid st) = sdBoth uid st := rfl

theorem sdMsgs_sdMeta (uid : PyStr) (st : Store) :
    sdMsgs uid (sdMeta uid st) = sdBoth uid st := rfl

theorem metaView_sdBoth (uid : PyStr) (st : Store) (u : PyStr) :
    metaView (sdBoth uid st) u = metaView st u := by
  simp [metaView, sdBoth, view_setdefault]

theorem msgsView_sdBoth (uid : PyStr) (st : Store) (u : PyStr) :
    msgsView (sdBoth uid st) u = msgsView st u := by
  simp [msgsView, sdBoth, view_setdefault]

theorem sdMeta_idem (uid : PyStr) (st : Store) :
    sdMeta uid (sdMeta uid st) = sdMeta uid st := by
  simp [sdMeta, Store.withMetadata, alSetdefault_idem]

theorem sdBoth_idem (uid : PyStr) (st : Store) :
    sdBoth uid (sdBoth uid st) = sdBoth uid st := by
  simp [sdBoth, alSetdefault_idem]

theorem sdBoth_sdMeta (uid : PyStr) (st : Store) :
    sdBoth uid (sdMeta uid st) = sdBoth uid st := by
  simp [sdBoth, sdMeta, Store.withMetadata, alSetdefault_idem]

theorem sdMeta_of_contains (uid : PyStr) (st : Store)
    (h : alContains st.conversation_metadata uid = true) : sdMeta uid st = st := by
  rcases Option.isSome_iff_exists.mp h with ⟨v, hv⟩
  simp [sdMeta, Store.withMetadata, alSetdefault, hv]

theorem sdMsgs_of_contains (uid : PyStr) (st : Store)
    (h : alContains st.conversation_messages uid = true) : sdMsgs uid st = st := by
  rcases Option.isSome_iff_exists.mp h with ⟨v, hv⟩
  simp [sdMsgs, Store.withMessages, alSetdefault, hv]

theorem sdBoth_of_contains (uid : PyStr) (st : Store)
    (hmeta : alContains st.conversation_metadata uid = true)
    (hmsgs : alContains st.conversation_messages uid = true) : sdBoth uid st = st := by
  rcases Option.isSome_iff_exists.mp hmeta with ⟨v, hv⟩
  rcases Option.isSome_iff_exists.mp hmsgs with ⟨w, hw⟩
  simp [sdBoth, alSetdefault, hv, hw]

theorem create_conversation_eq (uid fm : PyStr) (now : Nat) (cid : PyStr) (st : Store) :
    create_conversation uid fm now cid st = (cid, createPost uid fm now cid st) := by
  simp only [create_conversation, getUserMetadataStore_eq, getUserMessageStore_eq,
    msgsView_sdMeta, sdMsgs_sdMeta, createPost]

theorem ensure_conversation_eq (uid : PyStr) (ocid : Option PyStr) (msg : PyStr) (now : Nat)
    (ncid : PyStr) (st : Store) :
    ensure_conversation uid ocid msg now ncid st
      = match ocid with
        | some cid =>
          if cid ≠ [] ∧ alContains (metaView st uid) cid then (cid, sdMeta uid st)
          else create_conversation uid msg now ncid (sdMeta uid st)
        | none => create_conversation uid msg now ncid (sdMeta uid st) := by
  simp only [ensure_conversation, getUserMetadataStore_eq]

theorem build_prompt_eq (uid cid : PyStr) (retrieval : Except PyStr (List Faq)) (st : Store) :
    build_prompt uid cid retrieval st
      = (build_prompt_string (messagesOf st uid cid) retrieval, sdMsgs uid st) := by
  simp only [build_prompt, getUserMessageStore_eq, messagesOf]

theorem store_message_notFound (uid cid : PyStr) (role : Role) (content : PyStr) (now : Nat)
    (mid : PyStr) (st : Store) (h : alContains (msgsView st uid) cid = false) :
    store_message uid cid role content now mid st
      = (Except.error StoreErr.notFound, sdBoth uid st) := by
  simp only [store_message, getUserMessageStore_eq, getUserMetadataStore_eq,
    metaView_sdMsgs, sdMeta_sdMsgs, h]
  simp

theorem store_message_keyError (uid cid : PyStr) (role : Role) (content : PyStr) (now : Nat)
    (mid : PyStr) (st : Store) (hc : alContains (msgsView st uid) cid = true)
    (hm : alGet (metaView st uid) cid = none) :
    store_message uid cid role content now mid st
      = (Except.error StoreErr.keyError, storeMsgOnlyPost uid cid role content now mid st) := by
  simp only [store_message, getUserMessageStore_eq, getUserMetadataStore_eq,
    metaView_sdMsgs, sdMeta_sdMsgs, hc, hm, storeMsgOnlyPost, messagesOf]
  simp

theorem store_message_ok (uid cid : PyStr) (role : Role) (content : PyStr) (now : Nat)
    (mid : PyStr) (st : Store) (meta₀ : ConvMeta)
    (hc : alContains (msgsView st uid) cid = true)
    (hm : alGet (metaView st uid) cid = some meta₀) :
    store_message uid cid role content now mid st
      = (Except.ok ⟨mid, content, role, now, cid⟩,
         storeOkPost uid cid role content now mid st meta₀) := by
  simp only [store_message, getUserMessageStore_eq, getUserMetadataStore_eq,
    metaView_sdMsgs, sdMeta_sdMsgs, hc, hm, storeOkPost, storeMsgOnlyPost, storeNewMeta,
    messagesOf]
  simp

theorem delete_conversation_eq (cid uid : PyStr) (st : Store) :
    delete_conversation cid uid st
      = if alContains (metaView st uid) cid = false
        then (Except.error StoreErr.notFound, sdMeta uid st)
        else (Except.ok (), deletePost cid uid st) := by
  by_cases h : alContains (metaView st uid) cid = false
  · simp only [delete_conversation, getUserMetadataStore_eq, h]
    simp
  · simp only [delete_conversation, getUserMetadataStore_eq, getUserMessageStore_eq,
      msgsView_sdMeta, sdMsgs_sdMeta, h, if_neg h, deletePost, Store.withMessages,
      Store.withMetadata]

theorem clear_conversation_messages_eq (cid uid : PyStr) (now : Nat) (st : Store) :
    clear_conversation_messages cid uid now st
      = if alContains (metaView st uid) cid = false
        then (Except.error StoreErr.notFound, sdBoth uid st)
        else
          match alGet (metaView st uid) cid with
          | none => (Except.error StoreErr.keyError, clearMsgPost cid uid st)
          | some meta => (Except.ok (), clearPost cid uid now st meta) := by
  by_cases h : alContains (metaView st uid) cid = false
  · simp only [clear_conversation_messages, getUserMetadataStore_eq, getUserMessageStore_eq,
      msgsView_sdMeta, sdMsgs_sdMeta, h]
    simp
  · cases hm : alGet (metaView st uid) cid with
    | none =>
      have hc : alContains (metaView st uid) cid = true := by
        cases hcc : alContains (metaView st uid) cid
        · exact absurd hcc h
        · rfl
      rw [alContains, hm] at hc
      exact absurd hc (by simp)
    | some meta =>
      simp only [clear_conversation_messages, getUserMetadataStore_eq, getUserMessageStore_eq,
        msgsView_sdMeta, sdMsgs_sdMeta, h, if_neg h, hm, clearPost, clearMsgPost]

theorem metaView_createPost (uid fm : PyStr) (now : Nat) (cid : PyStr) (st : Store)
    (u : PyStr) :
    metaView (createPost uid fm now cid st) u
      = if u = uid then alSet (metaView st uid) cid ⟨derive_title fm, now, now⟩
        else metaView st u := by
  by_cases hu : u = uid <;>
    simp [metaView, createPost, sdBoth, alGet_alSet, alGet_alSetdefault, hu]

theorem msgsView_createPost (uid fm : PyStr) (now : Nat) (cid : PyStr) (st : Store)
    (u : PyStr) :
    msgsView (createPost uid fm now cid st) u
      = if u = uid then alSet (msgsView st uid) cid [] else msgsView st u := by
  by_cases hu : u = uid <;>
    simp [msgsView, createPost, sdBoth, alGet_alSet, alGet_alSetdefault, hu]

theorem metaView_storeMsgOnlyPost (uid cid : PyStr) (role : Role) (content : PyStr)
    (now : Nat) (mid : PyStr) (st : Store) (u : PyStr) :
    metaView (storeMsgOnlyPost uid cid role content now mid st) u = metaView st u := by
  by_cases hu : u = uid <;>
    simp [metaView, storeMsgOnlyPost, sdBoth, Store.withMessages, alGet_alSetdefault, hu]

theorem msgsView_storeMsgOnlyPost (uid cid : PyStr) (role : Role) (content : PyStr)
    (now : Nat) (mid : PyStr) (st : Store) (u : PyStr) :
    msgsView (storeMsgOnlyPost uid cid role content now mid st) u
      = if u = uid
        then alSet (msgsView st uid) cid
          (messagesOf st uid cid ++ [⟨mid, content, role, now, cid⟩])
        else msgsView st u := by
  by_cases hu : u = uid <;>
    simp [msgsView, storeMsgOnlyPost, sdBoth, Store.withMessages, alGet_alSet,
      alGet_alSetdefault, hu]

theorem metaView_storeOkPost (uid cid : PyStr) (role : Role) (content : PyStr)
    (now : Nat) (mid : PyStr) (st : Store) (meta₀ : ConvMeta) (u : PyStr) :
    metaView (storeOkPost uid cid role content now mid st meta₀) u
      = if u = uid then alSet (metaView st uid) cid (storeNewMeta role content meta₀ now)
        else metaView st u := by
  by_cases hu : u = uid <;>
    simp [metaView, storeOkPost, storeMsgOnlyPost, sdBoth, Store.withMessages,
      Store.withMetadata, alGet_alSet, alGet_alSetdefault, hu]

theorem msgsView_storeOkPost (uid cid : PyStr) (role : Role) (content : PyStr)
    (now : Nat) (mid : PyStr) (st : Store) (meta₀ : ConvMeta) (u : PyStr) :
    msgsView (storeOkPost uid cid role content now mid st meta₀) u
      = if u = uid
        then alSet (msgsView st uid) cid
          (messagesOf st uid cid ++ [⟨mid, content, role, now, cid⟩])
        else msgsView st u := by
  by_cases hu : u = uid <;>
    simp [msgsView, storeOkPost, storeMsgOnlyPost, sdBoth, Store.withMessages,
      Store.withMetadata, alGet_alSet, alGet_alSetdefault, hu]

theorem metaView_deletePost (cid uid : PyStr) (st : Store) (u : PyStr) :
    metaView (deletePost cid uid st) u
      = if u = uid then alPop (metaView st uid) cid else metaView st u := by
  by_cases hu : u = uid <;>
    simp [metaView, deletePost, sdBoth, alGet_alSet, alGet_alSetdefault, hu]

theorem msgsView_deletePost (cid uid : PyStr) (st : Store) (u : PyStr) :
    msgsView (deletePost cid uid st) u
      = if u = uid then alPop (msgsView st uid) cid else msgsView st u := by
  by_cases hu : u = uid <;>
    simp [msgsView, deletePost, sdBoth, alGet_alSet, alGet_alSetdefault, hu]

theorem metaView_clearMsgPost (cid uid : PyStr) (st : Store) (u : PyStr) :
    metaView (clearMsgPost cid uid st) u = metaView st u := by
  by_cases hu : u = uid <;>
    simp [metaView, clearMsgPost, sdBoth, Store.withMessages, alGet_alSetdefault, hu]

theorem msgsView_clearMsgPost (cid uid : PyStr) (st : Store) (u : PyStr) :
    msgsView (clearMsgPost cid uid st) u
      = if u = uid then alSet (msgsView st uid) cid [] else msgsView st u := by
  by_cases hu : u = uid <;>
    simp [msgsView, clearMsgPost, sdBoth, Store.withMessages, alGet_alSet,
      alGet_alSetdefault, hu]

theorem metaView_clearPost (cid uid : PyStr) (now : Nat) (st : Store) (meta : ConvMeta)
    (u : PyStr) :
    metaView (clearPost cid uid now st meta) u
      = if u = uid then alSet (metaView st uid) cid { meta with updated_at := now }
        else metaView st u := by
  by_cases hu : u = uid <;>
    simp [metaView, clearPost, clearMsgPost, sdBoth, Store.withMessages, Store.withMetadata,
      alGet_alSet, alGet_alSetdefault, hu]

theorem msgsView_clearPost (cid uid : PyStr) (now : Nat) (st : Store) (meta : ConvMeta)
    (u : PyStr) :
    msgsView (clearPost cid uid now st meta) u
      = if u = uid then alSet (msgsView st uid) cid [] else msgsView st u := by
  by_cases hu : u = uid <;>
    simp [msgsView, clearPost, clearMsgPost, sdBoth, Store.withMessages, Store.withMetadata,
      alGet_alSet, alGet_alSetdefault, hu]

theorem get_conversation_eq (cid uid : PyStr) (st : Store) :
    get_conversation cid uid st
      = (if alContains (msgsView st uid) cid = false then Except.error StoreErr.notFound
         else Except.ok (messagesOf st uid cid), sdMsgs uid st) := by
  by_cases h : alContains (msgsView st uid) cid = false
  · simp only [get_conversation, getUserMessageStore_eq, h]
    simp
  · simp only [get_conversation, getUserMessageStore_eq, h, if_neg h, messagesOf]
    simp

theorem contains_eq_of_keys_eq {α β : Type} (m₁ : AListS α) (m₂ : AListS β) (k : PyStr)
    (h : alKeys m₁ = alKeys m₂) : alContains m₁ k = alContains m₂ k := by
  by_cases hk : k ∈ alKeys m₁
  · rw [alContains, alContains, (alGet_isSome_iff m₁ k).mpr hk,
      (alGet_isSome_iff m₂ k).mpr (h ▸ hk)]
  · have h₁ : (alGet m₁ k).isSome = false :=
      Bool.not_eq_true _ ▸ fun hc => hk ((alGet_isSome_iff m₁ k).mp hc)
    have h₂ : (alGet m₂ k).isSome = false :=
      Bool.not_eq_true _ ▸ fun hc => hk (h ▸ (alGet_isSome_iff m₂ k).mp hc)
    rw [alContains, alContains, h₁, h₂]

theorem storeInv_empty : StoreInv Store.empty := fun _ => rfl

theorem storeInv_sdBoth (uid : PyStr) (st : Store) (h : StoreInv st) :
    StoreInv (sdBoth uid st) := by
  intro u
  rw [metaView_sdBoth, msgsView_sdBoth]
  exact h u

theorem storeInv_create (uid fm : PyStr) (now : Nat) (cid : PyStr) (st : Store)
    (h : StoreInv st) : StoreInv (create_conversation uid fm now cid st).2 := by
  rw [create_conversation_eq]
  intro u
  rw [metaView_createPost, msgsView_createPost]
  by_cases hu : u = uid
  · rw [if_pos hu, if_pos hu, alKeys_alSet, alKeys_alSet]
    have hc : (alGet (metaView st uid) cid).isSome = (alGet (msgsView st uid) cid).isSome :=
      contains_eq_of_keys_eq _ _ cid (h uid)
    rw [← hc]
    by_cases hs : (alGet (metaView st uid) cid).isSome
    · rw [if_pos hs, if_pos hs, h uid]
    · rw [if_neg hs, if_neg hs, h uid]
  · rw [if_neg hu, if_neg hu]
    exact h u

theorem storeInv_store (uid cid : PyStr) (role : Role) (content : PyStr) (now : Nat)
    (mid : PyStr) (st : Store) (h : StoreInv st) :
    StoreInv (store_message uid cid role content now mid st).2 := by
  cases hc : alContains (msgsView st uid) cid with
  | false =>
    rw [store_message_notFound uid cid role content now mid st hc]
    exact storeInv_sdBoth uid st h
  | true =>
    have hkeys : ∀ u, alKeys (if u = uid
        then alSet (msgsView st uid) cid
          (messagesOf st uid cid ++ [⟨mid, content, role, now, cid⟩])
        else msgsView st u) = alKeys (msgsView st u) := by
      intro u
      have hc' : (alGet (msgsView st uid) cid).isSome = true := hc
      by_cases hu : u = uid
      · rw [if_pos hu, alKeys_alSet, if_pos hc', hu]
      · rw [if_neg hu]
    cases hm : alGet (metaView st uid) cid with
    | none =>
      rw [store_message_keyError uid cid role content now mid st hc hm]
      intro u
      rw [metaView_storeMsgOnlyPost, msgsView_storeMsgOnlyPost, hkeys u]
      exact h u
    | some meta₀ =>
      rw [store_message_ok uid cid role content now mid st meta₀ hc hm]
      intro u
      rw [metaView_storeOkPost, msgsView_storeOkPost, hkeys u]
      by_cases hu : u = uid
      · rw [if_pos hu, alKeys_alSet, if_pos (by rw [hm]; rfl), hu]
        exact h uid
      · rw [if_neg hu]
        exact h u

theorem storeInv_delete (cid uid : PyStr) (st : Store) (h : StoreInv st) :
    StoreInv (delete_conversation cid uid st).2 := by
  rw [delete_conversation_eq]
  by_cases hc : alContains (metaView st uid) cid = false
  · rw [if_pos hc]
    intro u
    rw [metaView_sdMeta, msgsView_sdMeta]
    exact h u
  · rw [if_neg hc]
    intro u
    rw [metaView_deletePost, msgsView_deletePost]
    by_cases hu : u = uid
    · rw [if_pos hu, if_pos hu, alKeys_alPop, alKeys_alPop, h uid]
    · rw [if_neg hu, if_neg hu]
      exact h u

theorem storeInv_clear (cid uid : PyStr) (now : Nat) (st : Store) (h : StoreInv st) :
    StoreInv (clear_conversation_messages cid uid now st).2 := by
  rw [clear_conversation_messages_eq]
  by_cases hc : alContains (metaView st uid) cid = false
  · rw [if_pos hc]
    exact storeInv_sdBoth uid st h
  · rw [if_neg hc]
    have hsome : (alGet (metaView st uid) cid).isSome = true := by
      cases hcc : alContains (metaView st uid) cid
      · exact absurd hcc hc
      · exact hcc
    cases hm : alGet (metaView st uid) cid with
    | none => rw [hm] at hsome; exact absurd hsome (by simp)
    | some meta =>
      have hcmsgs : (alGet (msgsView st uid) cid).isSome = true := by
        have h2 : alContains (msgsView st uid) cid = true := by
          rw [← contains_eq_of_keys_eq (metaView st uid) (msgsView st uid) cid (h uid)]
          exact hsome
        exact h2
      intro u
      rw [metaView_clearPost, msgsView_clearPost]
      by_cases hu : u = uid
      · rw [if_pos hu, if_pos hu, alKeys_alSet, alKeys_alSet,
          if_pos (by rw [hm]; rfl), if_pos hcmsgs]
        exact h uid
      · rw [if_neg hu, if_neg hu]
        exact h u

/-- C10: after any sequence of the four store operations from the empty
store, each user's metadata dict and message dict hold exactly the same
conversation ids; consequently the NotFound checks that consult the metadata
dict and those that consult the message dict always agree. -/
theorem metadata_messages_keys_agree (st : Store) (h : Reachable st) :
    StoreInv st
    ∧ ∀ uid cid : PyStr,
        alContains (metaView st uid) cid = alContains (msgsView st uid) cid := by
  have hinv : StoreInv st := by
    induction h with
    | empty => exact storeInv_empty
    | create uid fm now cid _ ih => exact storeInv_create uid fm now cid _ ih
    | store uid cid role content now mid _ ih =>
      exact storeInv_store uid cid role content now mid _ ih
    | delete cid uid _ ih => exact storeInv_delete cid uid _ ih
    | clear cid uid now _ ih => exact storeInv_clear cid uid now _ ih
  exact ⟨hinv, fun uid cid => contains_eq_of_keys_eq _ _ cid (hinv uid)⟩

/-- C10 witness: the invariant at a concrete reachable store (one created
conversation). -/
theorem metadata_messages_keys_agree_witness :
    Reachable (create_conversation "u".toList "hello".toList 5 "c1".toList Store.empty).2
    ∧ StoreInv (create_conversation "u".toList "hello".toList 5 "c1".toList Store.empty).2 :=
  ⟨Reachable.create "u".toList "hello".toList 5 "c1".toList Reachable.empty,
   (metadata_messages_keys_agree _
     (Reachable.create "u".toList "hello".toList 5 "c1".toList Reachable.empty)).1⟩

theorem store_message_ok_inv (uid cid : PyStr) (role : Role) (content : PyStr) (now : Nat)
    (mid : PyStr) (st st' : Store) (msg : ChatMessage)
    (h : store_message uid cid role content now mid st = (Except.ok msg, st')) :
    msg = ⟨mid, content, role, now, cid⟩
    ∧ ∃ meta₀, alGet (metaView st uid) cid = some meta₀
        ∧ st' = storeOkPost uid cid role content now mid st meta₀ := by
  cases hc : alContains (msgsView st uid) cid with
  | false =>
    rw [store_message_notFound uid cid role content now mid st hc] at h
    exact absurd (congrArg Prod.fst h) (by simp)
  | true =>
    cases hm : alGet (metaView st uid) cid with
    | none =>
      rw [store_message_keyError uid cid role content now mid st hc hm] at h
      exact absurd (congrArg Prod.fst h) (by simp)
    | some meta₀ =>
      rw [store_message_ok uid cid role content now mid st meta₀ hc hm] at h
      have h1 := congrArg Prod.fst h
      have h2 := congrArg Prod.snd h
      simp only [] at h1 h2
      exact ⟨(Except.ok.inj h1).symm, meta₀, rfl, h2.symm⟩

theorem storeNewMeta_updated (role : Role) (content : PyStr) (meta₀ : ConvMeta) (now : Nat) :
    (storeNewMeta role content meta₀ now).updated_at = now
    ∧ (storeNewMeta role content meta₀ now).created_at = meta₀.created_at := by
  rw [storeNewMeta]
  split <;> exact ⟨rfl, rfl⟩

/-- C5: a newly created conversation has `created_at = updated_at` (both are
the creation-time clock sample); a successful `_store_message` sets
`updated_at` to the clock sample taken during the call and keeps
`created_at`, so whenever that sample exceeds the previous `updated_at`
(i.e. the clock advanced), `updated_at` strictly advances. -/
theorem timestamps_create_and_store :
    (∀ (uid fm : PyStr) (now : Nat) (cid : PyStr) (st : Store),
       ∃ m : ConvMeta,
         metaLookup (create_conversation uid fm now cid st).2 uid cid = some m
           ∧ m.created_at = m.updated_at ∧ m.updated_at = now)
    ∧ (∀ (uid cid : PyStr) (role : Role) (content : PyStr) (now : Nat) (mid : PyStr)
         (st st' : Store) (msg : ChatMessage) (m₀ : ConvMeta),
         store_message uid cid role content now mid st = (Except.ok msg, st') →
         metaLookup st uid cid = some m₀ →
         ∃ m₁, metaLookup st' uid cid = some m₁
           ∧ m₁.updated_at = now ∧ m₁.created_at = m₀.created_at
           ∧ (m₀.updated_at < now → m₀.updated_at < m₁.updated_at)) := by
  constructor
  · intro uid fm now cid st
    refine ⟨⟨derive_title fm, now, now⟩, ?_, rfl, rfl⟩
    rw [create_conversation_eq, metaLookup, metaView_createPost, if_pos rfl,
      alGet_alSet, if_pos rfl]
  · intro uid cid role content now mid st st' msg m₀ h hml
    obtain ⟨-, meta₀, hm, hst⟩ := store_message_ok_inv uid cid role content now mid st st' msg h
    rw [metaLookup] at hml
    rw [hml] at hm
    obtain rfl : m₀ = meta₀ := Option.some.inj hm
    subst hst
    obtain ⟨hupd, hcre⟩ := storeNewMeta_updated role content m₀ now
    refine ⟨storeNewMeta role content m₀ now, ?_, hupd, hcre, ?_⟩
    · rw [metaLookup, metaView_storeOkPost, if_pos rfl, alGet_alSet, if_pos rfl]
    · intro hlt
      rw [hupd]
      exact hlt

/-- C5 witness: create at time 0, then store at time 5. -/
theorem timestamps_create_and_store_witness :
    store_message "u".toList "c".toList Role.assistant "yo".toList 5 "m".toList
        (create_conversation "u".toList "hi".toList 0 "c".toList Store.empty).2
      = (Except.ok ⟨"m".toList, "yo".toList, Role.assistant, 5, "c".toList⟩,
         (store_message "u".toList "c".toList Role.assistant "yo".toList 5 "m".toList
           (create_conversation "u".toList "hi".toList 0 "c".toList Store.empty).2).2)
    ∧ metaLookup (create_conversation "u".toList "hi".toList 0 "c".toList Store.empty).2
        "u".toList "c".toList = some ⟨"hi".toList, 0, 0⟩
    ∧ ∃ m₁, metaLookup
          (store_message "u".toList "c".toList Role.assistant "yo".toList 5 "m".toList
            (create_conversation "u".toList "hi".toList 0 "c".toList Store.empty).2).2
          "u".toList "c".toList = some m₁
        ∧ m₁.updated_at = 5
        ∧ m₁.created_at = (⟨"hi".toList, 0, 0⟩ : ConvMeta).created_at
        ∧ ((⟨"hi".toList, 0, 0⟩ : ConvMeta).updated_at < 5 →
            (⟨"hi".toList, 0, 0⟩ : ConvMeta).updated_at < m₁.updated_at) :=
  ⟨rfl, by decide,
   timestamps_create_and_store.2 "u".toList "c".toList Role.assistant "yo".toList 5 "m".toList
     (create_conversation "u".toList "hi".toList 0 "c".toList Store.empty).2
     (store_message "u".toList "c".toList Role.assistant "yo".toList 5 "m".toList
       (create_conversation "u".toList "hi".toList 0 "c".toList Store.empty).2).2
     ⟨"m".toList, "yo".toList, Role.assistant, 5, "c".toList⟩
     ⟨"hi".toList, 0, 0⟩ rfl (by decide)⟩

theorem sdMsgs_idem (uid : PyStr) (st : Store) :
    sdMsgs uid (sdMsgs uid st) = sdMsgs uid st := by
  simp [sdMsgs, Store.withMessages, alSetdefault_idem]

theorem conversation_summary_eq (uid cid : PyStr) (st : Store) :
    conversation_summary uid cid st
      = (pureSummary (metaView st uid) (msgsView st uid) cid, sdBoth uid st) := by
  cases hm : alGet (metaView st uid) cid with
  | none =>
    simp only [conversation_summary, getUserMetadataStore_eq, getUserMessageStore_eq,
      msgsView_sdMeta, sdMsgs_sdMeta, hm, pureSummary]
  | some meta =>
    simp only [conversation_summary, getUserMetadataStore_eq, getUserMessageStore_eq,
      msgsView_sdMeta, sdMsgs_sdMeta, hm, pureSummary]

theorem summariesGo_eq (uid : PyStr) (cids : List PyStr) (st : Store) :
    summariesGo uid cids st
      = (goPure (metaView st uid) (msgsView st uid) cids,
         if cids = [] then st else sdBoth uid st) := by
  induction cids generalizing st with
  | nil => simp [summariesGo, goPure]
  | cons c rest ih =>
    rw [summariesGo, conversation_summary_eq]
    cases hs : pureSummary (metaView st uid) (msgsView st uid) c with
    | error e => simp [goPure, hs]
    | ok s =>
      simp only [hs]
      rw [ih (sdBoth uid st)]
      simp only [metaView_sdBoth, msgsView_sdBoth, sdBoth_idem, ite_self]
      cases hg : goPure (metaView st uid) (msgsView st uid) rest with
      | error e => simp [goPure, hs, hg]
      | ok ss => simp [goPure, hs, hg]

theorem list_conversations_eq (uid : PyStr) (st : Store) :
    list_conversations uid st
      = ((goPure (metaView st uid) (msgsView st uid) (alKeys (metaView st uid))).map
           sortByUpdatedDesc,
         if alKeys (metaView st uid) = [] then sdMeta uid st else sdBoth uid st) := by
  rw [list_conversations]
  simp only [getUserMetadataStore_eq, summariesGo_eq, metaView_sdMeta, msgsView_sdMeta,
    sdBoth_sdMeta]
  cases hg : goPure (metaView st uid) (msgsView st uid) (alKeys (metaView st uid)) with
  | error e => simp [Except.map]
  | ok ss => simp [Except.map]

/-- C9 counterexample: calling `list_conversations` for a user id not yet in
the store inserts an empty per-user entry (the `setdefault` in
`_get_user_metadata_store`), so the metadata map is not unchanged. -/
theorem list_conversations_mutates_cex :
    (list_conversations "u".toList Store.empty).2 ≠ Store.empty := by decide

/-- C9 (amended): the read endpoints never create or modify any conversation
data; for a user id already present in the respective map they leave the
store exactly unchanged, the only possible change is the insertion of an
empty per-user entry for a previously unseen user id — each map after the
call equals the map before it, or the map before it with one empty entry
for that user appended — and a repeated call returns the same result and
leaves the state fixed. -/
theorem read_endpoints_frame :
    (∀ (uid : PyStr) (st : Store),
       alContains st.conversation_metadata uid = true →
       alContains st.conversation_messages uid = true →
       (list_conversations uid st).2 = st)
    ∧ (∀ (cid uid : PyStr) (st : Store),
       alContains st.conversation_messages uid = true →
       (get_conversation cid uid st).2 = st)
    ∧ (∀ (uid : PyStr) (st : Store),
       list_conversations uid (list_conversations uid st).2 = list_conversations uid st)
    ∧ (∀ (cid uid : PyStr) (st : Store),
       get_conversation cid uid (get_conversation cid uid st).2
         = get_conversation cid uid st)
    ∧ (∀ (uid : PyStr) (st : Store),
       (list_conversations uid st).2.conversation_metadata
         = (if alContains st.conversation_metadata uid = true
            then st.conversation_metadata
            else st.conversation_metadata ++ [(uid, ([] : AListS ConvMeta))])
       ∧ (list_conversations uid st).2.conversation_messages
         = (if alKeys (metaView st uid) = [] ∨ alContains st.conversation_messages uid = true
            then st.conversation_messages
            else st.conversation_messages ++ [(uid, ([] : AListS (List ChatMessage)))]))
    ∧ (∀ (cid uid : PyStr) (st : Store),
       (get_conversation cid uid st).2.conversation_metadata = st.conversation_metadata
       ∧ (get_conversation cid uid st).2.conversation_messages
         = (if alContains st.conversation_messages uid = true
            then st.conversation_messages
            else st.conversation_messages ++ [(uid, ([] : AListS (List ChatMessage)))])) := by
  refine ⟨?_, ?_, ?_, ?_, ?_, ?_⟩
  · intro uid st h1 h2
    rw [list_conversations_eq]
    by_cases hk : alKeys (metaView st uid) = [] <;>
      simp [hk, sdMeta_of_contains uid st h1, sdBoth_of_contains uid st h1 h2]
  · intro cid uid st h
    rw [get_conversation_eq]
    simp [sdMsgs_of_contains uid st h]
  · intro uid st
    by_cases hk : alKeys (metaView st uid) = []
    · rw [list_conversations_eq uid st]
      simp only [hk, if_pos rfl, ite_true]
      rw [list_conversations_eq uid (sdMeta uid st)]
      simp [metaView_sdMeta, msgsView_sdMeta, hk, sdMeta_idem]
    · rw [list_conversations_eq uid st]
      simp only [if_neg hk]
      rw [list_conversations_eq uid (sdBoth uid st)]
      simp [metaView_sdBoth, msgsView_sdBoth, hk, sdBoth_idem]
  · intro cid uid st
    rw [get_conversation_eq cid uid st]
    rw [get_conversation_eq cid uid (sdMsgs uid st)]
    simp [msgsView_sdMsgs, sdMsgs_idem, messagesOf]
  · intro uid st
    rw [list_conversations_eq]
    by_cases hk : alKeys (metaView st uid) = []
    · simp only [hk, ite_true]
      refine ⟨?_, ?_⟩
      · show (alSetdefault st.conversation_metadata uid []).2 = _
        rw [alSetdefault_snd]
      · show st.conversation_messages = _
        simp [hk]
    · simp only [if_neg hk]
      refine ⟨?_, ?_⟩
      · show (alSetdefault st.conversation_metadata uid []).2 = _
        rw [alSetdefault_snd]
      · show (alSetdefault st.conversation_messages uid []).2 = _
        rw [alSetdefault_snd]
        by_cases hc : alContains st.conversation_messages uid = true <;> simp [hc, hk]
  · intro cid uid st
    rw [get_conversation_eq]
    refine ⟨rfl, ?_⟩
    show (alSetdefault st.conversation_messages uid []).2 = _
    rw [alSetdefault_snd]

/-- C9 witness: for a user already present in both maps, `list_conversations`
leaves the store unchanged. -/
theorem read_endpoints_frame_witness :
    alContains (create_conversation "u".toList "hi".toList 0 "c".toList
        Store.empty).2.conversation_metadata "u".toList = true
    ∧ alContains (create_conversation "u".toList "hi".toList 0 "c".toList
        Store.empty).2.conversation_messages "u".toList = true
    ∧ (list_conversations "u".toList
        (create_conversation "u".toList "hi".toList 0 "c".toList Store.empty).2).2
      = (create_conversation "u".toList "hi".toList 0 "c".toList Store.empty).2 :=
  ⟨by decide, by decide,
   read_endpoints_frame.1 "u".toList
     (create_conversation "u".toList "hi".toList 0 "c".toList Store.empty).2
     (by decide) (by decide)⟩

theorem build_prompt_string_ne_nil (history : List ChatMessage)
    (r : Except PyStr (List Faq)) : build_prompt_string history r ≠ [] := by
  intro hc
  rw [build_prompt_string] at hc
  have hS : SYSTEM_INSTRUCTION = [] := by
    rcases List.append_eq_nil.mp hc with ⟨h1, -⟩
    first
      | exact h1
      | (rcases List.append_eq_nil.mp h1 with ⟨h2, -⟩
         exact h2)
  exact absurd hS (by decide)

theorem messagesOf_storeOkPost (uid cid : PyStr) (role : Role) (content : PyStr)
    (now : Nat) (mid : PyStr) (st : Store) (meta₀ : ConvMeta) :
    messagesOf (storeOkPost uid cid role content now mid st meta₀) uid cid
      = messagesOf st uid cid ++ [⟨mid, content, role, now, cid⟩] := by
  rw [messagesOf, msgsView_storeOkPost, if_pos rfl, alGet_alSet, if_pos rfl]
  rfl

theorem contains_storeOkPost (uid cid : PyStr) (role : Role) (content : PyStr)
    (now : Nat) (mid : PyStr) (st : Store) (meta₀ : ConvMeta) :
    alContains (storeOkPost uid cid role content now mid st meta₀).conversation_messages uid
      = true := by
  simp [storeOkPost, storeMsgOnlyPost, Store.withMetadata, Store.withMessages, alContains,
    alGet_alSet]

/-- C6: when the user's message is non-blank, the user message has been
persisted and the backend call for the assembled prompt fails, the endpoint
reports a 500 with the backend detail, the final store is exactly the one in
which the user message was appended (so that conversation's message list
ends with the user message), and no assistant message is appended. -/
theorem generation_failure_preserves_user_message
    (uid reqMessage : PyStr) (reqCid : Option PyStr) (retrieval : Except PyStr (List Faq))
    (backend : PyStr → BackendResult) (d : PyStr) (now : Nat) (ncid mid₁ mid₂ : PyStr)
    (st st₁ st₂ : Store) (cid : PyStr) (um : ChatMessage)
    (hmsg : pyStrip reqMessage ≠ [])
    (hens : ensure_conversation uid reqCid (pyStrip reqMessage) now ncid st = (cid, st₁))
    (hstore : store_message uid cid Role.user (pyStrip reqMessage) now mid₁ st₁
        = (Except.ok um, st₂))
    (hfail : backend (full_prompt_of (build_prompt uid cid retrieval st₂).1 false)
        = BackendResult.err d) :
    chat_with_llm uid reqMessage reqCid retrieval backend now ncid mid₁ mid₂ st
      = (Except.error (HttpError.http 500 (LLM_FAILED ++ (OLLAMA_ERROR ++ d))),
         (build_prompt uid cid retrieval st₂).2)
    ∧ um = ⟨mid₁, pyStrip reqMessage, Role.user, now, cid⟩
    ∧ (build_prompt uid cid retrieval st₂).2 = st₂
    ∧ messagesOf st₂ uid cid = messagesOf st₁ uid cid ++ [um] := by
  obtain ⟨hum, meta₀, hm, hst₂⟩ :=
    store_message_ok_inv uid cid Role.user (pyStrip reqMessage) now mid₁ st₁ st₂ um hstore
  have hbp2 : (build_prompt uid cid retrieval st₂).2 = st₂ := by
    rw [build_prompt_eq]
    apply sdMsgs_of_contains
    rw [hst₂]
    exact contains_storeOkPost uid cid Role.user (pyStrip reqMessage) now mid₁ st₁ meta₀
  have hprompt : (build_prompt uid cid retrieval st₂).1 ≠ [] := by
    rw [build_prompt_eq]
    exact build_prompt_string_ne_nil _ _
  have hgen : generate_text (build_prompt uid cid retrieval st₂).1 false (some ANSWER_MARK)
      backend = Except.error (GenError.apiError (OLLAMA_ERROR ++ d)) := by
    rw [generate_text, if_neg hprompt, hfail]
  refine ⟨?_, hum, hbp2, ?_⟩
  · simp only [chat_with_llm, hmsg, hens, hstore, hgen, ite_false]
  · rw [hst₂, hum, messagesOf_storeOkPost]

/-- C6 witness: a concrete failed generation after "Hi" from a fresh user. -/
theorem generation_failure_preserves_user_message_witness :
    chat_with_llm "u".toList "Hi".toList none (Except.ok []) wBackendDown 0 "c".toList
        "m1".toList "m2".toList Store.empty
      = (Except.error (HttpError.http 500 (LLM_FAILED ++ (OLLAMA_ERROR ++ "down".toList))),
         wChatBP.2)
    ∧ (⟨"m1".toList, "Hi".toList, Role.user, 0, "c".toList⟩ : ChatMessage)
        = ⟨"m1".toList, pyStrip "Hi".toList, Role.user, 0, "c".toList⟩
    ∧ wChatBP.2 = wChatStore.2
    ∧ messagesOf wChatStore.2 "u".toList "c".toList
        = messagesOf wChatEnsure.2 "u".toList "c".toList
          ++ [⟨"m1".toList, "Hi".toList, Role.user, 0, "c".toList⟩] :=
  generation_failure_preserves_user_message "u".toList "Hi".toList none (Except.ok [])
    wBackendDown "down".toList 0 "c".toList "m1".toList "m2".toList Store.empty
    wChatEnsure.2 wChatStore.2 "c".toList
    ⟨"m1".toList, "Hi".toList, Role.user, 0, "c".toList⟩
    (by decide) rfl rfl rfl

/-- C8 witness: a concrete reply containing the marker. -/
theorem strip_marker_spec_witness :
    pyIn "Answer:".toList (pyStrip " x Answer: hi ".toList) = true
    ∧ ∃ before after, pyStrip " x Answer: hi ".toList = before ++ "Answer:".toList ++ after
        ∧ generate_text "q".toList false (some "Answer:".toList)
            (fun _ => BackendResult.ok " x Answer: hi ".toList) = Except.ok (pyStrip after)
        ∧ ∀ b a, pyStrip " x Answer: hi ".toList = b ++ "Answer:".toList ++ a →
            before.length ≤ b.length :=
  ⟨by decide,
   (strip_marker_spec "q".toList "Answer:".toList " x Answer: hi ".toList false
      (fun _ => BackendResult.ok " x Answer: hi ".toList)
      (by decide) (by decide) rfl).1 (by decide)⟩

end ChatBackend
